import Mathlib

/-!
Verification development for the two news-collection pipelines
(`src/data/GDELT_API_dataset_generator.py` and
`src/data/newsAPI_dataset_generator.py`).

Pandas dataframes are modelled shallowly: a cell is `Option String`
(`none` stands for pandas NaN / Python None), a row is an association
list from column name to cell, and a dataframe carries an ordered list
of column names together with its rows.  Python exceptions are modelled
with `Except PyError`.
-/

set_option maxRecDepth 4000

/-- A pandas cell: `none` is NaN (missing), `some s` a string value. -/
abbrev Cell := Option String

/-- A dataframe row: association list from column name to cell.
A key absent from the list reads as NaN, like a cell left unfilled by
`pd.concat` column alignment. -/
abbrev Row := List (String × Cell)

/-- Reading a cell of a row by column name (first matching key wins,
as in pandas, where column labels are unique in well-formed frames). -/
def getCell : Row → String → Cell
  | [], _ => none
  | (c, v) :: r, c' => if c = c' then v else getCell r c'

/-- A pandas dataframe: ordered column labels plus rows. -/
structure DataFrame where
  cols : List String
  rows : List Row
deriving Repr, DecidableEq

/-- `pd.DataFrame()`: no columns, no rows. -/
def emptyDF : DataFrame := DataFrame.mk [] []

/-- Column union as performed by `pd.concat`: columns of the first frame
in order, then the columns of the second frame not already present. -/
def unionCols (c₁ c₂ : List String) : List String :=
  c₁ ++ c₂.filter (fun c => decide (c ∉ c₁))

/-- `pd.concat([d₁, d₂], ignore_index=True)`: union of columns, rows of
`d₁` then rows of `d₂`; cells of columns a row's frame lacked read as NaN. -/
def DataFrame.concat (d₁ d₂ : DataFrame) : DataFrame :=
  DataFrame.mk (unionCols d₁.cols d₂.cols) (d₁.rows ++ d₂.rows)

/-- The Python exceptions the pipelines can raise. -/
inductive PyError where
  | httpError (status : Nat)
  | keyError
  | parserError
deriving Repr, DecidableEq

/-- Deduplication by the `url` column keeping the first occurrence
(`drop_duplicates(subset="url")`, pandas default `keep="first"`); the
accumulator holds the url cells already seen.  As in pandas, NaN url
cells are considered duplicates of one another. -/
def dedupByUrl : List Row → List Cell → List Row
  | [], _ => []
  | r :: rs, seen =>
    if getCell r "url" ∈ seen then dedupByUrl rs seen
    else r :: dedupByUrl rs (getCell r "url" :: seen)

/-! ## GDELT pipeline (`GDELT_API_dataset_generator.py`) -/

/-- The column whitelist of the GDELT `clean_and_merge` (line 86). -/
def KEEP_COLS : List String :=
  ["url", "title", "content", "seendate", "sourceCountry",
   "sourceCollection", "domain", "query_used"]

/-- `combined[keep_cols].copy()` where
`keep_cols = [c for c in KEEP_COLS if c in combined.columns]`. -/
def projectKeep (d : DataFrame) : DataFrame :=
  DataFrame.mk (KEEP_COLS.filter (fun c => decide (c ∈ d.cols)))
    (d.rows.map (fun r =>
      (KEEP_COLS.filter (fun c => decide (c ∈ d.cols))).map
        (fun c => (c, getCell r c))))

/-- `combined["content"] = combined["content"].fillna("")`: every row is
rebuilt over the frame's columns with a NaN `content` cell replaced by
the empty string. -/
def fillContent (cols : List String) (rows : List Row) : List Row :=
  rows.map (fun r => cols.map (fun c =>
    (c, if c = "content" then some ((getCell r c).getD "") else getCell r c)))

/-- Lines 90-92: `if "url" in combined.columns:` deduplicate by `url`
(keep first) and then drop rows with a NaN `url` — note the dedup runs
BEFORE the dropna, and both run before the title filter. -/
def gdeltDedupStep (d : DataFrame) : DataFrame :=
  if "url" ∈ d.cols then
    DataFrame.mk d.cols
      ((dedupByUrl d.rows []).filter (fun r => (getCell r "url").isSome))
  else d

/-- Lines 94-95: `if "title" in combined.columns:` drop rows with a NaN
`title`. -/
def gdeltTitleStep (d : DataFrame) : DataFrame :=
  if "title" ∈ d.cols then
    DataFrame.mk d.cols (d.rows.filter (fun r => (getCell r "title").isSome))
  else d

/-- Lines 98-99: `if "content" in combined.columns:` fill NaN `content`
cells with the empty string. -/
def gdeltContentStep (d : DataFrame) : DataFrame :=
  if "content" ∈ d.cols then DataFrame.mk d.cols (fillContent d.cols d.rows)
  else d

/-- GDELT `clean_and_merge` (lines 82-101): concat, project onto the
column whitelist, then — guarded by column presence — deduplicate by
`url` (before any dropna!), drop NaN urls, drop NaN titles, and fill
NaN `content` with the empty string. -/
def clean_and_merge_gdelt (existing nw : DataFrame) : DataFrame :=
  gdeltContentStep (gdeltTitleStep (gdeltDedupStep
    (projectKeep (DataFrame.concat existing nw))))

/-- GDELT `load_existing` (lines 76-79): `pd.read_csv` is NOT wrapped in
try/except, so a parse failure propagates.  The filesystem is abstracted
as: path absent, file present but unparsable, or file parsing to `d`. -/
inductive FileState where
  | absent
  | unparsable
  | parsable (d : DataFrame)
deriving Repr

def load_existing_gdelt : FileState → Except PyError DataFrame
  | FileState.absent => Except.ok emptyDF
  | FileState.unparsable => Except.error PyError.parserError
  | FileState.parsable d => Except.ok d

/-- GDELT `main` accumulation loop (lines 114-124): each query's fetch
result either raised (caught, logged, loop continues) or produced a
frame, appended only when non-empty. -/
def collectNonEmpty : List (Except PyError DataFrame) → List DataFrame
  | [] => []
  | Except.error _ :: rest => collectNonEmpty rest
  | Except.ok d :: rest =>
    if d.rows.isEmpty then collectNonEmpty rest else d :: collectNonEmpty rest

/-- `pd.concat(frames, ignore_index=True)` over a list of frames. -/
def concatAll (frames : List DataFrame) : DataFrame :=
  frames.foldl DataFrame.concat emptyDF

/-- GDELT `main` after loading (lines 114-134), parametrised by the
per-query fetch outcomes.  `none` means the run printed "No new articles
collected" and returned without touching the stored file; `some d` means
`d` was written to the output CSV. -/
def main_gdelt (existing : DataFrame)
    (results : List (Except PyError DataFrame)) : Option DataFrame :=
  let allNew := collectNonEmpty results
  if allNew.isEmpty then none
  else some (clean_and_merge_gdelt existing (concatAll allNew))

/-! ## NewsAPI pipeline (`newsAPI_dataset_generator.py`) -/

/-- The columns the NewsAPI `clean_and_merge` strips (line 115). -/
def STRIP_COLS : List String :=
  ["source", "author", "title", "description", "url", "content", "query"]

/-- Python `str(cell)` as applied by `.astype(str)`: a missing value
prints as `"nan"` (float NaN; `None` would print `"None"`, a distinction
no claim depends on since url/title NaNs are dropped before this step). -/
def pyStr : Cell → String
  | some s => s
  | none => "nan"

/-- Python `str.strip()`: drop leading and trailing whitespace. -/
def pyStrip (s : String) : String :=
  String.mk
    (((s.toList.dropWhile Char.isWhitespace).reverse.dropWhile
      Char.isWhitespace).reverse)

/-- The per-row effect of the strip loop (lines 115-117): the row is
rebuilt over the frame's columns, with each cell of a column in
`STRIP_COLS` replaced by `str(cell).strip()`. -/
def stripRow (cols : List String) (r : Row) : Row :=
  cols.map (fun c =>
    (c, if c ∈ STRIP_COLS then some (pyStrip (pyStr (getCell r c)))
        else getCell r c))

/-- The row predicate of `dropna(subset=["url", "title"])`: both cells
are present (empty strings count as present). -/
def validUrlTitle (r : Row) : Bool :=
  (getCell r "url").isSome && (getCell r "title").isSome

/-- NewsAPI `clean_and_merge` (lines 105-119): concat, then
`dropna(subset=["url","title"])` — which raises `KeyError` when either
column is absent from the concatenated frame — then deduplicate by
`url` keeping the first occurrence, then strip the string columns. -/
def clean_and_merge_newsapi (existing new_data : DataFrame) :
    Except PyError DataFrame :=
  let combined := DataFrame.concat existing new_data
  if "url" ∈ combined.cols ∧ "title" ∈ combined.cols then
    let filtered := combined.rows.filter validUrlTitle
    let deduped := dedupByUrl filtered []
    Except.ok (DataFrame.mk combined.cols (deduped.map (stripRow combined.cols)))
  else Except.error PyError.keyError

/-- NewsAPI `load_existing` (lines 96-102): `pd.read_csv` IS wrapped in
try/except, every failure yielding the empty frame. -/
def load_existing_newsapi : FileState → DataFrame
  | FileState.absent => emptyDF
  | FileState.unparsable => emptyDF
  | FileState.parsable d => d

/-- One HTTP page response of the NewsAPI fetch loop: rate-limited
(status 429), another non-2xx status, or a 2xx body whose `articles`
array normalizes to the given rows. -/
inductive Resp where
  | rateLimited
  | httpError (status : Nat)
  | ok (articles : List Row)
deriving Repr, DecidableEq

/-- The body of `fetch_newsapi_articles`'s `for page in range(1,
max_pages+1)` loop (lines 54-91), instrumented with the list of page
numbers actually requested.  `resp` gives the provider's response to
the k-th request (in this loop the k-th request always asks for page
k).  On 429 the code sleeps and `continue`s — which moves the `for`
loop to the NEXT page number.  A non-2xx status raises out of the
function (`raise_for_status`), an empty `articles` array breaks. -/
def fetchNewsGo (resp : Nat → Resp) :
    Nat → Nat → List Row → List Nat → List Nat × Except PyError (List Row)
  | _, 0, acc, req => (req.reverse, Except.ok acc)
  | page, remaining + 1, acc, req =>
    match resp page with
    | Resp.rateLimited => fetchNewsGo resp (page + 1) remaining acc (page :: req)
    | Resp.httpError s =>
      ((page :: req).reverse, Except.error (PyError.httpError s))
    | Resp.ok [] => ((page :: req).reverse, Except.ok acc)
    | Resp.ok (a :: rest) =>
      fetchNewsGo resp (page + 1) remaining (acc ++ a :: rest) (page :: req)

/-- `fetch_newsapi_articles` (lines 38-93): run the page loop from page
1 for at most `maxPages` iterations; returns the requested page numbers
and either the accumulated normalized rows or the raised error. -/
def fetch_newsapi_articles (resp : Nat → Resp) (maxPages : Nat) :
    List Nat × Except PyError (List Row) :=
  fetchNewsGo resp 1 maxPages [] []

/-- Modelled from the spec (for comparison with `fetch_newsapi_articles`):
"On receiving a rate-limit signal from the provider, the fetch for that
page is not advanced; the fetcher sleeps ... and retries the same page",
"a rate-limited page does not consume a page-count slot".  `fuel` bounds
the total number of requests so the retry loop terminates in the model. -/
def fetchSpecRetry (resp : Nat → Resp) :
    Nat → Nat → Nat → List Row → Except PyError (List Row)
  | _, _, 0, acc => Except.ok acc
  | _, 0, _, acc => Except.ok acc
  | attempt, pagesLeft + 1, fuel + 1, acc =>
    match resp attempt with
    | Resp.rateLimited => fetchSpecRetry resp (attempt + 1) (pagesLeft + 1) fuel acc
    | Resp.httpError s => Except.error (PyError.httpError s)
    | Resp.ok [] => Except.ok acc
    | Resp.ok (a :: rest) =>
      fetchSpecRetry resp (attempt + 1) pagesLeft fuel (acc ++ a :: rest)

/-- NewsAPI `main` fetch loop (lines 129-141): NO try/except — a raise
from any query's fetch propagates and aborts the run; otherwise every
frame (empty or not) is appended. -/
def collectFrames : List (Except PyError DataFrame) →
    Except PyError (List DataFrame)
  | [] => Except.ok []
  | Except.error e :: _ => Except.error e
  | Except.ok d :: rest => (collectFrames rest).map (fun l => d :: l)

/-- NewsAPI `main` after loading (lines 129-147), parametrised by the
per-query fetch outcomes.  `Except.ok d` means `d` was written to the
output CSV (the save is unconditional); `Except.error e` means the run
aborted with e. -/
def main_newsapi (existing : DataFrame)
    (results : List (Except PyError DataFrame)) : Except PyError DataFrame := do
  let frames ← collectFrames results
  let new_data := if frames.isEmpty then emptyDF else concatAll frames
  clean_and_merge_newsapi existing new_data

/-- The url cells of a list of rows. -/
def urlsOf (rows : List Row) : List Cell :=
  rows.map (fun r => getCell r "url")

/-- The url cells of a dataframe. -/
def urlCells (d : DataFrame) : List Cell := urlsOf d.rows


/-! ## Basic lemmas about the model -/

@[simp]
theorem urlsOf_nil : urlsOf [] = [] := rfl

@[simp]
theorem urlsOf_cons (r : Row) (rs : List Row) :
    urlsOf (r :: rs) = getCell r "url" :: urlsOf rs := rfl

theorem urlsOf_append (xs ys : List Row) :
    urlsOf (xs ++ ys) = urlsOf xs ++ urlsOf ys := by
  simp [urlsOf]

theorem getCell_rebuild (cols : List String) (g : String → Cell) (c : String)
    (hc : c ∈ cols) :
    getCell (cols.map fun x => (x, g x)) c = g c := by
  induction cols with
  | nil => cases hc
  | cons c₀ cs ih =>
    by_cases h : c₀ = c
    · simp [getCell, h]
    · rcases List.mem_cons.1 hc with hc' | hc'
      · exact absurd hc'.symm h
      · simpa [getCell, h] using ih hc'

theorem getCell_rebuild_not_mem (cols : List String) (g : String → Cell)
    (c : String) (hc : c ∉ cols) :
    getCell (cols.map fun x => (x, g x)) c = none := by
  induction cols with
  | nil => rfl
  | cons c₀ cs ih =>
    have h₀ : c₀ ≠ c := fun h => hc (h ▸ List.mem_cons_self _ _)
    have hcs : c ∉ cs := fun h => hc (List.mem_cons_of_mem _ h)
    simpa [getCell, h₀] using ih hcs

/-- A row that is a rebuild over `cols` is a fixpoint of rebuilding. -/
def SelfRow (cols : List String) (r : Row) : Prop :=
  r = cols.map fun c => (c, getCell r c)

theorem selfRow_of_rebuild (cols : List String) (g : String → Cell) :
    SelfRow cols (cols.map fun c => (c, g c)) := by
  unfold SelfRow
  exact (List.map_congr_left (fun c hc => by
    rw [getCell_rebuild cols g c hc])).symm

/-! ## Lemmas about `dedupByUrl` -/

theorem dedup_sublist (rows : List Row) (seen : List Cell) :
    List.Sublist (dedupByUrl rows seen) rows := by
  induction rows generalizing seen with
  | nil => simp [dedupByUrl]
  | cons r rs ih =>
    by_cases h : getCell r "url" ∈ seen
    · simpa [dedupByUrl, h] using (ih seen).cons r
    · simpa [dedupByUrl, h] using (ih (getCell r "url" :: seen)).cons₂ r

theorem mem_of_mem_dedup {rows : List Row} {seen : List Cell} {r : Row}
    (h : r ∈ dedupByUrl rows seen) : r ∈ rows :=
  (dedup_sublist rows seen).subset h

theorem mem_dedup_not_seen {rows : List Row} {seen : List Cell} {r : Row}
    (h : r ∈ dedupByUrl rows seen) : getCell r "url" ∉ seen := by
  induction rows generalizing seen with
  | nil => simp [dedupByUrl] at h
  | cons r₀ rs ih =>
    by_cases h₀ : getCell r₀ "url" ∈ seen
    · rw [dedupByUrl, if_pos h₀] at h
      exact ih h
    · rw [dedupByUrl, if_neg h₀] at h
      rcases List.mem_cons.1 h with h' | h'
      · exact h' ▸ h₀
      · intro hmem
        exact ih h' (List.mem_cons_of_mem _ hmem)

/-- Any dedup survivor is the first row of the input with its url cell. -/
theorem mem_dedup_find? {rows : List Row} {seen : List Cell} {r : Row}
    (h : r ∈ dedupByUrl rows seen) :
    rows.find? (fun r' => getCell r' "url" == getCell r "url") = some r := by
  induction rows generalizing seen with
  | nil => simp [dedupByUrl] at h
  | cons r₀ rs ih =>
    by_cases h₀ : getCell r₀ "url" ∈ seen
    · rw [dedupByUrl, if_pos h₀] at h
      have hr : getCell r "url" ∉ seen := mem_dedup_not_seen h
      have hne : (getCell r₀ "url" == getCell r "url") = false := by
        simp only [beq_eq_false_iff_ne, ne_eq]
        intro he
        exact hr (he ▸ h₀)
      rw [List.find?_cons, hne]
      exact ih h
    · rw [dedupByUrl, if_neg h₀] at h
      rcases List.mem_cons.1 h with h' | h'
      · subst h'
        rw [List.find?_cons]
        simp
      · have hr : getCell r "url" ∉ getCell r₀ "url" :: seen :=
          mem_dedup_not_seen h'
        have hne : (getCell r₀ "url" == getCell r "url") = false := by
          simp only [beq_eq_false_iff_ne, ne_eq]
          intro he
          exact hr (he ▸ List.mem_cons_self _ _)
        rw [List.find?_cons, hne]
        exact ih h'

/-- The first row with a url cell not yet seen survives dedup. -/
theorem find?_mem_dedup {rows : List Row} {k : Cell} {r : Row}
    (h : rows.find? (fun r' => getCell r' "url" == k) = some r)
    (seen : List Cell) (hk : k ∉ seen) :
    r ∈ dedupByUrl rows seen := by
  induction rows generalizing seen with
  | nil => simp at h
  | cons r₀ rs ih =>
    rw [List.find?_cons] at h
    by_cases hp : (getCell r₀ "url" == k) = true
    · rw [hp] at h
      have hr : r₀ = r := by simpa using h
      have hk₀ : getCell r₀ "url" = k := eq_of_beq hp
      rw [dedupByUrl, if_neg (hk₀ ▸ hk)]
      exact List.mem_cons.2 (Or.inl hr.symm)
    · rw [Bool.of_not_eq_true hp] at h
      have hk₀ : getCell r₀ "url" ≠ k := by
        intro he
        exact hp (by simp [he])
      by_cases h₀ : getCell r₀ "url" ∈ seen
      · rw [dedupByUrl, if_pos h₀]
        exact ih h seen hk
      · rw [dedupByUrl, if_neg h₀]
        refine List.mem_cons_of_mem _ (ih h _ ?_)
        intro hmem
        rcases List.mem_cons.1 hmem with hm | hm
        · exact hk₀ hm.symm
        · exact hk hm

/-- Dedup survivors have pairwise distinct url cells, none of them seen. -/
theorem dedup_urls_nodup (rows : List Row) (seen : List Cell) :
    (urlsOf (dedupByUrl rows seen)).Nodup ∧
      ∀ c ∈ urlsOf (dedupByUrl rows seen), c ∉ seen := by
  induction rows generalizing seen with
  | nil => simp [dedupByUrl]
  | cons r rs ih =>
    by_cases h : getCell r "url" ∈ seen
    · rw [dedupByUrl, if_pos h]
      exact ih seen
    · rw [dedupByUrl, if_neg h]
      obtain ⟨hnd, hns⟩ := ih (getCell r "url" :: seen)
      refine ⟨List.nodup_cons.2 ⟨fun hmem => ?_, hnd⟩, fun c hc => ?_⟩
      · exact hns _ hmem (List.mem_cons_self _ _)
      · rcases List.mem_cons.1 hc with hc' | hc'
        · exact hc' ▸ h
        · exact fun hcs => hns _ hc' (List.mem_cons_of_mem _ hcs)

/-- Dedup does not lose url values: each input url is seen or survives. -/
theorem mem_urls_dedup {rows : List Row} {c : Cell}
    (h : c ∈ urlsOf rows) (seen : List Cell) :
    c ∈ seen ∨ c ∈ urlsOf (dedupByUrl rows seen) := by
  induction rows generalizing seen with
  | nil => simp at h
  | cons r rs ih =>
    rw [urlsOf_cons] at h
    by_cases h₀ : getCell r "url" ∈ seen
    · rw [dedupByUrl, if_pos h₀]
      rcases List.mem_cons.1 h with hc | hc
      · exact Or.inl (hc ▸ h₀)
      · exact ih hc seen
    · rw [dedupByUrl, if_neg h₀, urlsOf_cons]
      rcases List.mem_cons.1 h with hc | hc
      · exact Or.inr (hc ▸ List.mem_cons_self _ _)
      · rcases ih hc (getCell r "url" :: seen) with hs | hs
        · rcases List.mem_cons.1 hs with hs' | hs'
          · exact Or.inr (hs' ▸ List.mem_cons_self _ _)
          · exact Or.inl hs'
        · exact Or.inr (List.mem_cons_of_mem _ hs)

theorem dedup_eq_nil {rows : List Row} {seen : List Cell}
    (h : ∀ c ∈ urlsOf rows, c ∈ seen) : dedupByUrl rows seen = [] := by
  induction rows with
  | nil => rfl
  | cons r rs ih =>
    have h₀ : getCell r "url" ∈ seen := h _ (List.mem_cons_self _ _)
    rw [dedupByUrl, if_pos h₀]
    exact ih fun c hc => h c (List.mem_cons_of_mem _ hc)

/-- Dedup of `xs ++ ys` is `xs` when `xs` already has distinct unseen
urls and `ys` only repeats urls of `xs` (or already-seen ones). -/
theorem dedup_append_absorb {xs ys : List Row} {seen : List Cell}
    (hnd : (urlsOf xs).Nodup) (hdisj : ∀ c ∈ urlsOf xs, c ∉ seen)
    (hys : ∀ c ∈ urlsOf ys, c ∈ urlsOf xs ∨ c ∈ seen) :
    dedupByUrl (xs ++ ys) seen = xs := by
  induction xs generalizing seen with
  | nil =>
    simp only [List.nil_append]
    exact dedup_eq_nil fun c hc => (hys c hc).resolve_left (by simp)
  | cons x xs ih =>
    have hx : getCell x "url" ∉ seen := hdisj _ (List.mem_cons_self _ _)
    rw [List.cons_append, dedupByUrl, if_neg hx]
    congr 1
    have hnd' := List.nodup_cons.1 (by simpa using hnd)
    refine ih hnd'.2 ?_ ?_
    · intro c hc hmem
      rcases List.mem_cons.1 hmem with hm | hm
      · exact hnd'.1 (hm ▸ hc)
      · exact hdisj c (List.mem_cons_of_mem _ hc) hm
    · intro c hc
      rcases hys c hc with hm | hm
      · rcases List.mem_cons.1 hm with hm' | hm'
        · exact Or.inr (hm' ▸ List.mem_cons_self _ _)
        · exact Or.inl hm'
      · exact Or.inr (List.mem_cons_of_mem _ hm)

/-! ## Sample data used by witnesses and counterexamples -/

def rowUA : Row := [("url", some "u"), ("title", some "A")]

def rowUB : Row := [("url", some "u"), ("title", some "B")]

def rowUN : Row := [("url", some "u"), ("title", none)]

def rowA : Row := [("url", some "a"), ("title", some "t")]

def rowASpace : Row := [("url", some "a "), ("title", some "s")]

def rowEmptyStrs : Row := [("url", some ""), ("title", some "")]

def dfEx : DataFrame := DataFrame.mk ["url", "title"] [rowUA]

def dfNewUB : DataFrame := DataFrame.mk ["url", "title"] [rowUB]

def dfInvalidU : DataFrame := DataFrame.mk ["url", "title"] [rowUN]

def dfGood : DataFrame := DataFrame.mk ["url", "title"] [rowA]

def dfASpace : DataFrame := DataFrame.mk ["url", "title"] [rowASpace]

def dfEmptyStrs : DataFrame := DataFrame.mk ["url", "title"] [rowEmptyStrs]

/-! ## C7: load behaviour -/

/-- C7 counterexample: the claim says `load_existing` in EITHER pipeline
returns an empty dataset (rather than raising) when the file exists but
cannot be parsed.  The GDELT `load_existing` has no try/except around
`pd.read_csv`, so on an unparsable file it raises instead of returning
the empty frame. -/
theorem load_existing_gdelt_raises_on_unparsable :
    load_existing_gdelt FileState.unparsable = Except.error PyError.parserError
      ∧ load_existing_gdelt FileState.unparsable ≠ Except.ok emptyDF :=
  ⟨rfl, fun h => Except.noConfusion h⟩

/-- C7 amended: loading from a non-existent path yields the empty
dataset in both pipelines; a parse failure yields the empty dataset in
the NewsAPI pipeline but propagates (fatally) in the GDELT pipeline. -/
theorem load_existing_amended :
    load_existing_gdelt FileState.absent = Except.ok emptyDF
      ∧ load_existing_gdelt FileState.unparsable =
          Except.error PyError.parserError
      ∧ load_existing_newsapi FileState.absent = emptyDF
      ∧ load_existing_newsapi FileState.unparsable = emptyDF
      ∧ ∀ d, load_existing_newsapi (FileState.parsable d) = d :=
  ⟨rfl, rfl, rfl, rfl, fun _ => rfl⟩

/-! ## C10: NewsAPI merge is not total -/

/-- C10: whenever the concatenation of the two input frames lacks a
`url` column or a `title` column (e.g. both inputs are empty frames),
the NewsAPI `clean_and_merge` raises `KeyError` from `dropna` instead
of returning a dataset. -/
theorem newsapi_merge_keyerror (d₁ d₂ : DataFrame)
    (h : "url" ∉ (DataFrame.concat d₁ d₂).cols
      ∨ "title" ∉ (DataFrame.concat d₁ d₂).cols) :
    clean_and_merge_newsapi d₁ d₂ = Except.error PyError.keyError := by
  simp only [clean_and_merge_newsapi]
  rw [if_neg]
  intro hand
  rcases h with h | h
  · exact h hand.1
  · exact h hand.2

/-- C10 witness: the empty/empty case — precisely the state of a first
run whose queries all returned zero articles. -/
theorem newsapi_merge_keyerror_witness :
    clean_and_merge_newsapi emptyDF emptyDF = Except.error PyError.keyError :=
  newsapi_merge_keyerror emptyDF emptyDF (Or.inl (by decide))

/-! ## C6: per-query failure isolation -/

theorem collectNonEmpty_drop_error (rs₁ rs₂ : List (Except PyError DataFrame))
    (e : PyError) :
    collectNonEmpty (rs₁ ++ Except.error e :: rs₂) =
      collectNonEmpty (rs₁ ++ rs₂) := by
  induction rs₁ with
  | nil => rfl
  | cons r rs ih =>
    cases r with
    | error e' => simpa [collectNonEmpty] using ih
    | ok d => simp [collectNonEmpty, ih]

/-- C6 counterexample: the claim says BOTH pipelines log a failed
query's error and continue.  The NewsAPI `main` has no try/except: the
first raising fetch aborts the whole run, and the good second query's
records reach no dataset — while the GDELT `main` on the same outcomes
does save the good query's data. -/
theorem newsapi_main_aborts_on_error :
    main_newsapi dfEx [Except.error (PyError.httpError 500), Except.ok dfGood]
        = Except.error (PyError.httpError 500)
      ∧ main_gdelt dfEx [Except.error (PyError.httpError 500), Except.ok dfGood]
        = some (DataFrame.mk ["url", "title"] [rowUA, rowA]) := by
  constructor
  · rfl
  · decide

/-- C6 amended: in the GDELT `main` a query whose fetch raises is
dropped and the run is exactly the run without that query (failure
isolation holds); in the NewsAPI `main` the first raising query aborts
the run with its error. -/
theorem main_failure_isolation_amended :
    (∀ (ex : DataFrame) (rs₁ rs₂ : List (Except PyError DataFrame))
        (e : PyError),
      main_gdelt ex (rs₁ ++ Except.error e :: rs₂) =
        main_gdelt ex (rs₁ ++ rs₂))
      ∧ ∀ (ex : DataFrame) (e : PyError)
          (rs : List (Except PyError DataFrame)),
        main_newsapi ex (Except.error e :: rs) = Except.error e := by
  constructor
  · intro ex rs₁ rs₂ e
    simp only [main_gdelt, collectNonEmpty_drop_error]
  · intro ex e rs
    rfl

/-! ## C9: zero-new-records runs -/

theorem collectNonEmpty_eq_nil {rs : List (Except PyError DataFrame)}
    (h : ∀ r ∈ rs, ∀ d, r = Except.ok d → d.rows = []) :
    collectNonEmpty rs = [] := by
  induction rs with
  | nil => rfl
  | cons r rest ih =>
    have hrest : ∀ r ∈ rest, ∀ d, r = Except.ok d → d.rows = [] :=
      fun r' hr' => h r' (List.mem_cons_of_mem _ hr')
    cases r with
    | error e => simpa [collectNonEmpty] using ih hrest
    | ok d =>
      have hd : d.rows = [] := h _ (List.mem_cons_self _ _) d rfl
      simp [collectNonEmpty, hd, ih hrest]

/-- C9 counterexample: the claim says BOTH pipelines skip merge/save and
leave the stored file untouched when zero new records were collected.
In the NewsAPI `main`, empty frames are still appended, the guard tests
the (never empty) list of frames, and the merged result — here just the
re-cleaned prior dataset — is unconditionally written back. -/
theorem newsapi_main_saves_on_zero_new :
    main_newsapi dfEx [Except.ok emptyDF]
      = Except.ok (DataFrame.mk ["url", "title"]
          [[("url", some "u"), ("title", some "A")]]) := by
  rfl

/-- C9 amended: the GDELT `main` skips merge and save (touching no file)
whenever every query raised or returned an empty frame; the NewsAPI
`main` never skips: with zero new records it still rewrites the stored
file (and even raises `KeyError` when the prior dataset is empty too). -/
theorem main_zero_new_records_amended :
    (∀ (ex : DataFrame) (rs : List (Except PyError DataFrame)),
      (∀ r ∈ rs, ∀ d, r = Except.ok d → d.rows = []) →
        main_gdelt ex rs = none)
      ∧ main_newsapi dfEx [Except.ok emptyDF]
          = Except.ok (DataFrame.mk ["url", "title"]
              [[("url", some "u"), ("title", some "A")]])
      ∧ main_newsapi emptyDF [Except.ok emptyDF]
          = Except.error PyError.keyError := by
  refine ⟨fun ex rs h => ?_, by rfl, by rfl⟩
  simp [main_gdelt, collectNonEmpty_eq_nil h]

/-- C9 witness: instantiating the amended GDELT skip at a concrete run —
one raising query and one empty query — no save happens. -/
theorem main_zero_new_records_amended_witness :
    main_gdelt dfEx [Except.error (PyError.httpError 500), Except.ok emptyDF]
      = none :=
  main_zero_new_records_amended.1 dfEx _
    (by
      intro r hr d hd
      rcases List.mem_cons.1 hr with h | h
      · subst h; cases hd
      · rcases List.mem_cons.1 h with h | h
        · subst h
          cases hd
          rfl
        · cases h)

/-! ## C8: rate-limit handling in the NewsAPI fetch loop -/

/-- A provider that rate-limits the first request and returns one
article (`r₀`) for every later request. -/
def respRLthenData (r₀ : Row) : Nat → Resp :=
  fun k => if k = 1 then Resp.rateLimited else Resp.ok [r₀]

/-- C8 counterexample: the claim says a 429 does not advance the page
cursor, does not consume a page-count slot, and the same page is
retried.  With `max_pages = 1` and a provider whose first response is a
429 (any retry would return data), the code requests page 1 once, never
retries, and ends the query with zero records — while the spec's
retry-the-same-page discipline would have obtained the article. -/
theorem newsapi_fetch_rate_limit_cx :
    fetch_newsapi_articles (respRLthenData rowA) 1 = ([1], Except.ok [])
      ∧ fetchSpecRetry (respRLthenData rowA) 1 1 5 [] = Except.ok [rowA] :=
  ⟨rfl, rfl⟩

theorem fetchNewsGo_all_data (r₀ : Row) (n : Nat) :
    ∀ (page : Nat) (acc : List Row) (req : List Nat), 2 ≤ page →
      fetchNewsGo (respRLthenData r₀) page n acc req =
        (req.reverse ++ List.range' page n,
          Except.ok (acc ++ List.replicate n r₀)) := by
  induction n with
  | zero => intro page acc req _; simp [fetchNewsGo]
  | succ n ih =>
    intro page acc req hpage
    have h1 : page ≠ 1 := by omega
    have : respRLthenData r₀ page = Resp.ok [r₀] := by
      simp [respRLthenData, h1]
    rw [fetchNewsGo, this]
    show fetchNewsGo (respRLthenData r₀) (page + 1) n (acc ++ [r₀])
        (page :: req) = _
    rw [ih (page + 1) (acc ++ [r₀]) (page :: req) (by omega)]
    rw [List.range'_succ, List.replicate_succ]
    simp

/-- C8 amended: a rate-limited page response produces no records for
that attempt and does not abort the query, but it DOES consume a
page-count slot and the loop moves on to the NEXT page number instead
of retrying: with a 429 on the first request and data available on
every later request, a fetch with `max_pages = m + 1` requests exactly
pages 1 through m + 1 (page 1 is never retried) and collects only m
pages' worth of records. -/
theorem newsapi_fetch_rate_limit_amended (r₀ : Row) (m : Nat) :
    fetch_newsapi_articles (respRLthenData r₀) (m + 1) =
      (List.range' 1 (m + 1), Except.ok (List.replicate m r₀)) := by
  rw [fetch_newsapi_articles, fetchNewsGo]
  have : respRLthenData r₀ 1 = Resp.rateLimited := by simp [respRLthenData]
  rw [this]
  rw [fetchNewsGo_all_data r₀ m 2 [] [1] (by omega)]
  rw [List.range'_succ]
  simp

/-! ## Step lemmas for the GDELT merge -/

theorem gdeltDedupStep_cols (d : DataFrame) :
    (gdeltDedupStep d).cols = d.cols := by
  unfold gdeltDedupStep
  split <;> rfl

theorem gdeltTitleStep_cols (d : DataFrame) :
    (gdeltTitleStep d).cols = d.cols := by
  unfold gdeltTitleStep
  split <;> rfl

theorem gdeltContentStep_cols (d : DataFrame) :
    (gdeltContentStep d).cols = d.cols := by
  unfold gdeltContentStep
  split <;> rfl

theorem mem_projectKeep_cols (d : DataFrame) (c : String) (hc : c ∈ KEEP_COLS) :
    c ∈ (projectKeep d).cols ↔ c ∈ d.cols := by
  simp [projectKeep, List.mem_filter, hc]

/-- Reading a non-`content` cell through the `fillna` rebuild. -/
theorem getCell_fillRow (cols : List String) (r : Row) (c : String)
    (hc : c ∈ cols) (hcc : c ≠ "content") :
    getCell (cols.map (fun x =>
        (x, if x = "content" then some ((getCell r x).getD "")
            else getCell r x))) c = getCell r c := by
  rw [getCell_rebuild _ _ _ hc]
  simp [hcc]

/-- Rows of the content step come from rows of the input with `url` and
`title` cells unchanged (when those columns are present). -/
theorem mem_gdeltContentStep {d : DataFrame} {r : Row}
    (h : r ∈ (gdeltContentStep d).rows) :
    ∃ r' ∈ d.rows,
      ("url" ∈ d.cols → getCell r "url" = getCell r' "url")
        ∧ ("title" ∈ d.cols → getCell r "title" = getCell r' "title") := by
  unfold gdeltContentStep at h
  split at h
  · simp only [fillContent, List.mem_map] at h
    obtain ⟨r', hr', hre⟩ := h
    refine ⟨r', hr', ?_, ?_⟩
    · intro hu
      rw [← hre, getCell_fillRow _ _ _ hu (by decide)]
    · intro ht
      rw [← hre, getCell_fillRow _ _ _ ht (by decide)]
  · exact ⟨r, h, fun _ => rfl, fun _ => rfl⟩

/-! ## C2: url/title non-emptiness of merged records -/

/-- C2 counterexample: the claim says records whose `url` or `title` is
the EMPTY STRING are discarded.  Both pipelines only use `dropna`,
which drops missing values, not empty strings: a record with `url=""`
and `title=""` survives both merges verbatim. -/
theorem merge_keeps_empty_strings_cx :
    clean_and_merge_gdelt emptyDF dfEmptyStrs
        = DataFrame.mk ["url", "title"] [rowEmptyStrs]
      ∧ clean_and_merge_newsapi emptyDF dfEmptyStrs
        = Except.ok (DataFrame.mk ["url", "title"] [rowEmptyStrs])
      ∧ getCell rowEmptyStrs "url" = some ""
      ∧ getCell rowEmptyStrs "title" = some "" :=
  ⟨by decide, rfl, rfl, rfl⟩

/-- Successful NewsAPI merges happen exactly when the concatenation has
`url` and `title` columns, and the result is then the strip of the
dedup of the valid rows. -/
theorem newsapi_ok_elim {ex nd d : DataFrame}
    (h : clean_and_merge_newsapi ex nd = Except.ok d) :
    "url" ∈ (DataFrame.concat ex nd).cols
      ∧ "title" ∈ (DataFrame.concat ex nd).cols
      ∧ d = DataFrame.mk (DataFrame.concat ex nd).cols
          ((dedupByUrl ((DataFrame.concat ex nd).rows.filter validUrlTitle) []).map
            (stripRow (DataFrame.concat ex nd).cols)) := by
  simp only [clean_and_merge_newsapi] at h
  by_cases hcond : "url" ∈ (DataFrame.concat ex nd).cols
      ∧ "title" ∈ (DataFrame.concat ex nd).cols
  · rw [if_pos hcond] at h
    rcases h with ⟨rfl⟩
    exact ⟨hcond.1, hcond.2, rfl⟩
  · rw [if_neg hcond] at h
    cases h

theorem gdelt_output_nonnull (ex nw : DataFrame)
    (hu : "url" ∈ (DataFrame.concat ex nw).cols)
    (ht : "title" ∈ (DataFrame.concat ex nw).cols) :
    ∀ r ∈ (clean_and_merge_gdelt ex nw).rows,
      (getCell r "url").isSome ∧ (getCell r "title").isSome := by
  intro r hr
  have hu0 : "url" ∈ (projectKeep (DataFrame.concat ex nw)).cols :=
    (mem_projectKeep_cols _ _ (by decide)).2 hu
  have ht0 : "title" ∈ (projectKeep (DataFrame.concat ex nw)).cols :=
    (mem_projectKeep_cols _ _ (by decide)).2 ht
  set d₀ := projectKeep (DataFrame.concat ex nw) with hd₀
  have hd₁ : gdeltDedupStep d₀ = DataFrame.mk d₀.cols
      ((dedupByUrl d₀.rows []).filter (fun r => (getCell r "url").isSome)) := by
    unfold gdeltDedupStep
    rw [if_pos hu0]
  have ht1 : "title" ∈ (gdeltDedupStep d₀).cols := by
    rw [gdeltDedupStep_cols]; exact ht0
  have hd₂ : gdeltTitleStep (gdeltDedupStep d₀) =
      DataFrame.mk (gdeltDedupStep d₀).cols
        ((gdeltDedupStep d₀).rows.filter
          (fun r => (getCell r "title").isSome)) := by
    unfold gdeltTitleStep
    rw [if_pos ht1]
  obtain ⟨r', hr', hru, hrt⟩ := mem_gdeltContentStep
    (d := gdeltTitleStep (gdeltDedupStep d₀)) (by exact hr)
  have hcolsu : "url" ∈ (gdeltTitleStep (gdeltDedupStep d₀)).cols := by
    rw [gdeltTitleStep_cols, gdeltDedupStep_cols]; exact hu0
  have hcolst : "title" ∈ (gdeltTitleStep (gdeltDedupStep d₀)).cols := by
    rw [gdeltTitleStep_cols]; exact ht1
  rw [hru hcolsu, hrt hcolst]
  rw [hd₂] at hr'
  simp only [List.mem_filter] at hr'
  obtain ⟨hr'', htitle⟩ := hr'
  rw [hd₁] at hr''
  simp only [List.mem_filter] at hr''
  exact ⟨hr''.2, htitle⟩

theorem newsapi_output_nonnull {ex nd d : DataFrame}
    (h : clean_and_merge_newsapi ex nd = Except.ok d) :
    ∀ r ∈ d.rows, (getCell r "url").isSome ∧ (getCell r "title").isSome := by
  obtain ⟨hu, ht, rfl⟩ := newsapi_ok_elim h
  intro r hr
  simp only [List.mem_map] at hr
  obtain ⟨r', _, hre⟩ := hr
  subst hre
  constructor
  · rw [stripRow, getCell_rebuild _ _ _ hu,
      if_pos (show "url" ∈ STRIP_COLS by decide)]
    rfl
  · rw [stripRow, getCell_rebuild _ _ _ ht,
      if_pos (show "title" ∈ STRIP_COLS by decide)]
    rfl

/-- C2 amended: every record of a merged dataset has a PRESENT
(non-null) `url` and `title` — provided, for the GDELT pipeline, that
the concatenated input has those columns at all, and, for the NewsAPI
pipeline, that the merge returned instead of raising.  Records whose
url or title is the empty string are NOT discarded. -/
theorem merged_records_nonnull_amended :
    (∀ ex nw : DataFrame,
      "url" ∈ (DataFrame.concat ex nw).cols →
      "title" ∈ (DataFrame.concat ex nw).cols →
      ∀ r ∈ (clean_and_merge_gdelt ex nw).rows,
        (getCell r "url").isSome ∧ (getCell r "title").isSome)
      ∧ ∀ ex nd d : DataFrame, clean_and_merge_newsapi ex nd = Except.ok d →
          ∀ r ∈ d.rows, (getCell r "url").isSome ∧ (getCell r "title").isSome :=
  ⟨gdelt_output_nonnull, fun _ _ _ h => newsapi_output_nonnull h⟩

/-- C2 witness: a concrete merged record in each pipeline with its url
and title cells present. -/
theorem merged_records_nonnull_witness :
    ((getCell rowUA "url").isSome ∧ (getCell rowUA "title").isSome)
      ∧ ((getCell rowA "url").isSome ∧ (getCell rowA "title").isSome) :=
  ⟨merged_records_nonnull_amended.1 dfEx dfNewUB (by decide) (by decide)
      rowUA (by decide),
    merged_records_nonnull_amended.2 dfGood emptyDF
      (DataFrame.mk ["url", "title"] [rowA]) rfl rowA (by decide)⟩

/-! ## First-occurrence lemmas for the GDELT merge -/

theorem gdelt_decomp (ex nw : DataFrame)
    (hu : "url" ∈ (DataFrame.concat ex nw).cols)
    (ht : "title" ∈ (DataFrame.concat ex nw).cols) :
    clean_and_merge_gdelt ex nw = gdeltContentStep (DataFrame.mk
      (projectKeep (DataFrame.concat ex nw)).cols
      (((dedupByUrl (projectKeep (DataFrame.concat ex nw)).rows []).filter
          (fun r => (getCell r "url").isSome)).filter
        (fun r => (getCell r "title").isSome))) := by
  have hu0 : "url" ∈ (projectKeep (DataFrame.concat ex nw)).cols :=
    (mem_projectKeep_cols _ _ (by decide)).2 hu
  have ht0 : "title" ∈ (projectKeep (DataFrame.concat ex nw)).cols :=
    (mem_projectKeep_cols _ _ (by decide)).2 ht
  unfold clean_and_merge_gdelt gdeltDedupStep gdeltTitleStep
  rw [if_pos hu0]
  rw [if_pos (show "title" ∈ (DataFrame.mk
    (projectKeep (DataFrame.concat ex nw)).cols _).cols from ht0)]

/-- Forward direction of the content step: every input row has an image
among the output rows with the same url and title cells. -/
theorem gdeltContentStep_exists {d : DataFrame} {r' : Row}
    (h : r' ∈ d.rows) :
    ∃ r ∈ (gdeltContentStep d).rows,
      ("url" ∈ d.cols → getCell r "url" = getCell r' "url")
        ∧ ("title" ∈ d.cols → getCell r "title" = getCell r' "title") := by
  unfold gdeltContentStep
  split
  · refine ⟨_, List.mem_map_of_mem _ h, ?_, ?_⟩
    · intro hu
      exact getCell_fillRow _ _ _ hu (by decide)
    · intro ht
      exact getCell_fillRow _ _ _ ht (by decide)
  · exact ⟨r', h, fun _ => rfl, fun _ => rfl⟩

/-- Every output row of the GDELT merge with url cell `some u` carries
the title of the FIRST row with that url in the projected concatenation
(and that title is present). -/
theorem gdelt_out_url_first {ex nw : DataFrame} {u : String} {r : Row}
    (hu : "url" ∈ (DataFrame.concat ex nw).cols)
    (ht : "title" ∈ (DataFrame.concat ex nw).cols)
    (hr : r ∈ (clean_and_merge_gdelt ex nw).rows)
    (hru : getCell r "url" = some u) :
    ∃ r', (projectKeep (DataFrame.concat ex nw)).rows.find?
        (fun x => getCell x "url" == some u) = some r'
      ∧ getCell r "title" = getCell r' "title"
      ∧ (getCell r' "title").isSome := by
  rw [gdelt_decomp ex nw hu ht] at hr
  have hu0 : "url" ∈ (projectKeep (DataFrame.concat ex nw)).cols :=
    (mem_projectKeep_cols _ _ (by decide)).2 hu
  have ht0 : "title" ∈ (projectKeep (DataFrame.concat ex nw)).cols :=
    (mem_projectKeep_cols _ _ (by decide)).2 ht
  obtain ⟨r₁, hr₁, hru₁, hrt₁⟩ := mem_gdeltContentStep hr
  have hru₁' := hru₁ hu0
  have hrt₁' := hrt₁ ht0
  simp only [List.mem_filter] at hr₁
  obtain ⟨⟨hr₁d, _⟩, htitle₁⟩ := hr₁
  have hfind := mem_dedup_find? hr₁d
  have hr₁u : getCell r₁ "url" = some u := by rw [← hru₁', hru]
  rw [hr₁u] at hfind
  exact ⟨r₁, hfind, by rw [hrt₁'], htitle₁⟩

/-- If the first row with url `some u` in the projected concatenation
has a present title, the GDELT merge output contains a row with that
url and title. -/
theorem gdelt_out_url_exists {ex nw : DataFrame} {u : String} {r₀ : Row}
    (hu : "url" ∈ (DataFrame.concat ex nw).cols)
    (ht : "title" ∈ (DataFrame.concat ex nw).cols)
    (hfind : (projectKeep (DataFrame.concat ex nw)).rows.find?
        (fun x => getCell x "url" == some u) = some r₀)
    (htitle : (getCell r₀ "title").isSome) :
    ∃ r ∈ (clean_and_merge_gdelt ex nw).rows,
      getCell r "url" = some u ∧ getCell r "title" = getCell r₀ "title" := by
  rw [gdelt_decomp ex nw hu ht]
  have hu0 : "url" ∈ (projectKeep (DataFrame.concat ex nw)).cols :=
    (mem_projectKeep_cols _ _ (by decide)).2 hu
  have ht0 : "title" ∈ (projectKeep (DataFrame.concat ex nw)).cols :=
    (mem_projectKeep_cols _ _ (by decide)).2 ht
  have hr₀u : getCell r₀ "url" = some u := by
    simpa using List.find?_some hfind
  have hmem := find?_mem_dedup hfind [] (List.not_mem_nil _)
  have hmemf : r₀ ∈ ((dedupByUrl (projectKeep (DataFrame.concat ex nw)).rows []).filter
        (fun r => (getCell r "url").isSome)).filter
      (fun r => (getCell r "title").isSome) := by
    refine List.mem_filter.2 ⟨List.mem_filter.2 ⟨hmem, ?_⟩, htitle⟩
    rw [hr₀u]
    rfl
  obtain ⟨r, hr, hrurl, hrtitle⟩ :=
    gdeltContentStep_exists (d := DataFrame.mk
      (projectKeep (DataFrame.concat ex nw)).cols
      (((dedupByUrl (projectKeep (DataFrame.concat ex nw)).rows []).filter
          (fun r => (getCell r "url").isSome)).filter
        (fun r => (getCell r "title").isSome))) hmemf
  exact ⟨r, hr, by rw [hrurl hu0, hr₀u], hrtitle ht0⟩

/-- `find?` through a map, when the predicate is invariant under the
mapped function. -/
theorem find?_map_eq (l : List Row) (f : Row → Row) (p : Row → Bool)
    (hpf : ∀ x, p (f x) = p x) :
    (l.map f).find? p = (l.find? p).map f := by
  induction l with
  | nil => rfl
  | cons x xs ih =>
    rw [List.map_cons, List.find?_cons, List.find?_cons, hpf]
    cases hp : p x
    · simpa [hp] using ih
    · simp [hp]

/-- The projected first occurrence of a url is the projected image of
the first occurrence in the raw concatenation. -/
theorem projectKeep_find?_url (d : DataFrame) (u : String)
    (hu : "url" ∈ (projectKeep d).cols) :
    (projectKeep d).rows.find? (fun x => getCell x "url" == some u)
      = (d.rows.find? (fun x => getCell x "url" == some u)).map
          (fun r => (projectKeep d).cols.map (fun c => (c, getCell r c))) := by
  show (d.rows.map _).find? _ = _
  rw [find?_map_eq _ _ _ (fun x => by
    rw [getCell_rebuild (KEEP_COLS.filter (fun c => decide (c ∈ d.cols)))
      (fun c => getCell x c) "url" hu])]
  rfl

/-! ## Survival of valid records in the NewsAPI merge -/

/-- Any row of the concatenated input with a present url `u` and a
present title yields a row with url `strip(u)` in a successful NewsAPI
merge: the dropna filter runs before dedup, so an invalid earlier
duplicate cannot shadow it. -/
theorem newsapi_valid_survives {ex nd d : DataFrame} {u : String} {r : Row}
    (h : clean_and_merge_newsapi ex nd = Except.ok d)
    (hr : r ∈ (DataFrame.concat ex nd).rows)
    (hru : getCell r "url" = some u)
    (hrt : (getCell r "title").isSome) :
    ∃ r' ∈ d.rows, getCell r' "url" = some (pyStrip u) := by
  obtain ⟨hu, ht, rfl⟩ := newsapi_ok_elim h
  have hrf : r ∈ (DataFrame.concat ex nd).rows.filter validUrlTitle :=
    List.mem_filter.2 ⟨hr, by simp [validUrlTitle, hru, hrt]⟩
  have hfs : (((DataFrame.concat ex nd).rows.filter validUrlTitle).find?
      (fun x => getCell x "url" == some u)).isSome :=
    List.find?_isSome.2 ⟨r, hrf, by simp [hru]⟩
  obtain ⟨r₁, hfind⟩ := Option.isSome_iff_exists.1 hfs
  have hr₁u : getCell r₁ "url" = some u := by
    simpa using List.find?_some hfind
  have hmem := find?_mem_dedup hfind [] (List.not_mem_nil _)
  refine ⟨stripRow (DataFrame.concat ex nd).cols r₁,
    List.mem_map_of_mem _ hmem, ?_⟩
  rw [stripRow, getCell_rebuild _ _ _ hu,
    if_pos (show "url" ∈ STRIP_COLS by decide), hr₁u]
  rfl

/-! ## C4: filter/dedup ordering -/

/-- C4 counterexample: the claim says invalid records are discarded
BEFORE deduplication in both pipelines, so a valid later duplicate
survives an invalid first occurrence.  In the GDELT merge, dedup by
`url` runs BEFORE the title dropna: with an existing record for `u`
lacking a title and a new valid record for `u`, the merge returns no
record for `u` at all. -/
theorem gdelt_loses_valid_duplicate_cx :
    clean_and_merge_gdelt dfInvalidU dfNewUB = DataFrame.mk ["url", "title"] []
      ∧ getCell rowUB "url" = some "u"
      ∧ (getCell rowUB "title").isSome :=
  ⟨by decide, rfl, rfl⟩

/-- C4 amended: in the NewsAPI merge the dropna filters run before
dedup, so every record of the concatenated input with a present url and
title contributes its (stripped) url to a successful merge, however
invalid earlier duplicates look.  In the GDELT merge dedup runs before
the title filter, so a valid later duplicate can be lost: on the
concrete input of the counterexample the merge output is empty. -/
theorem merge_filter_order_amended :
    (∀ (ex nd d : DataFrame) (u : String) (r : Row),
      clean_and_merge_newsapi ex nd = Except.ok d →
      r ∈ (DataFrame.concat ex nd).rows →
      getCell r "url" = some u →
      (getCell r "title").isSome →
      ∃ r' ∈ d.rows, getCell r' "url" = some (pyStrip u))
      ∧ clean_and_merge_gdelt dfInvalidU dfNewUB
          = DataFrame.mk ["url", "title"] [] := by
  refine ⟨fun ex nd d u r h hr hru hrt => ?_, by decide⟩
  exact newsapi_valid_survives h hr hru hrt

/-- C4 witness: on the counterexample input the NewsAPI merge does keep
a record for the valid later duplicate. -/
theorem merge_filter_order_amended_witness :
    ∃ r' ∈ (DataFrame.mk ["url", "title"]
        [[("url", some "u"), ("title", some "B")]]).rows,
      getCell r' "url" = some (pyStrip "u") :=
  merge_filter_order_amended.1 dfInvalidU dfNewUB
    (DataFrame.mk ["url", "title"] [[("url", some "u"), ("title", some "B")]])
    "u" rowUB rfl (by decide) rfl rfl

/-! ## C3: precedence of the first occurrence -/

theorem getCell_stripRow (cols : List String) (r : Row) (c : String)
    (hc : c ∈ cols) (hcs : c ∈ STRIP_COLS) :
    getCell (stripRow cols r) c = some (pyStrip (pyStr (getCell r c))) := by
  rw [stripRow, getCell_rebuild _ _ _ hc, if_pos hcs]

/-- C3: deduplication keeps the first occurrence in concatenated order,
so a stored record always beats a newly fetched record with the same
url, and among duplicate new records the earliest wins.

GDELT conjunct: if the first row of the concatenation carrying url `u`
has title `A`, the merge output contains a row with url `u` and title
`A`, and every output row with url `u` has title `A`.

NewsAPI conjunct: the same, for the first VALID (url and title present)
occurrence, with all url values of the input and the title `A` already
whitespace-trimmed — the trailing strip step rewrites surface forms,
and trimmed values are the state of any record valid for storage. -/
theorem merge_first_occurrence_precedence :
    (∀ (ex nw : DataFrame) (u A : String) (r₀ : Row),
      "url" ∈ (DataFrame.concat ex nw).cols →
      "title" ∈ (DataFrame.concat ex nw).cols →
      (ex.rows ++ nw.rows).find? (fun x => getCell x "url" == some u)
        = some r₀ →
      getCell r₀ "title" = some A →
      (∃ r ∈ (clean_and_merge_gdelt ex nw).rows,
        getCell r "url" = some u ∧ getCell r "title" = some A)
        ∧ ∀ r ∈ (clean_and_merge_gdelt ex nw).rows,
            getCell r "url" = some u → getCell r "title" = some A)
      ∧ ∀ (ex nd d : DataFrame) (u A : String) (r₀ : Row),
          clean_and_merge_newsapi ex nd = Except.ok d →
          (∀ r ∈ (DataFrame.concat ex nd).rows, ∀ s,
            getCell r "url" = some s → pyStrip s = s) →
          pyStrip A = A →
          ((DataFrame.concat ex nd).rows.filter validUrlTitle).find?
              (fun x => getCell x "url" == some u) = some r₀ →
          getCell r₀ "title" = some A →
          (∃ r ∈ d.rows, getCell r "url" = some u ∧ getCell r "title" = some A)
            ∧ ∀ r ∈ d.rows, getCell r "url" = some u →
                getCell r "title" = some A := by
  constructor
  · intro ex nw u A r₀ hu ht hfind htA
    have hu0 : "url" ∈ (projectKeep (DataFrame.concat ex nw)).cols :=
      (mem_projectKeep_cols _ _ (by decide)).2 hu
    have ht0 : "title" ∈ (projectKeep (DataFrame.concat ex nw)).cols :=
      (mem_projectKeep_cols _ _ (by decide)).2 ht
    have hproj : (projectKeep (DataFrame.concat ex nw)).rows.find?
        (fun x => getCell x "url" == some u)
          = some ((projectKeep (DataFrame.concat ex nw)).cols.map
              (fun c => (c, getCell r₀ c))) := by
      rw [projectKeep_find?_url (DataFrame.concat ex nw) u hu0]
      show ((ex.rows ++ nw.rows).find? _).map _ = _
      rw [hfind]
      rfl
    have hprojTitle : getCell ((projectKeep (DataFrame.concat ex nw)).cols.map
        (fun c => (c, getCell r₀ c))) "title" = some A := by
      rw [getCell_rebuild _ _ _ ht0, htA]
    constructor
    · obtain ⟨r, hr, hrurl, hrtitle⟩ := gdelt_out_url_exists hu ht hproj
        (by rw [hprojTitle]; rfl)
      exact ⟨r, hr, hrurl, by rw [hrtitle, hprojTitle]⟩
    · intro r hr hru
      obtain ⟨r', hfind', htitle_eq, _⟩ :=
        gdelt_out_url_first hu ht hr hru
      rw [hproj] at hfind'
      have : r' = (projectKeep (DataFrame.concat ex nw)).cols.map
          (fun c => (c, getCell r₀ c)) := by
        injection hfind'.symm
      rw [htitle_eq, this, hprojTitle]
  · intro ex nd d u A r₀ h htrim htrimA hfind htA
    obtain ⟨hu, ht, rfl⟩ := newsapi_ok_elim h
    have hr₀u : getCell r₀ "url" = some u := by
      simpa using List.find?_some hfind
    have hr₀mem : r₀ ∈ (DataFrame.concat ex nd).rows :=
      (List.filter_sublist _).subset (List.mem_of_find?_eq_some hfind)
    have hutrim : pyStrip u = u := htrim r₀ hr₀mem u hr₀u
    have hmem := find?_mem_dedup hfind [] (List.not_mem_nil _)
    constructor
    · refine ⟨stripRow (DataFrame.concat ex nd).cols r₀,
        List.mem_map_of_mem _ hmem, ?_, ?_⟩
      · rw [getCell_stripRow _ _ _ hu (by decide), hr₀u]
        show some (pyStrip u) = some u
        rw [hutrim]
      · rw [getCell_stripRow _ _ _ ht (by decide), htA]
        show some (pyStrip A) = some A
        rw [htrimA]
    · intro r hr hru
      simp only [List.mem_map] at hr
      obtain ⟨r₁, hr₁, rfl⟩ := hr
      have hval : validUrlTitle r₁ = true :=
        (List.mem_filter.1 (mem_of_mem_dedup hr₁)).2
      have hr₁mem : r₁ ∈ (DataFrame.concat ex nd).rows :=
        (List.filter_sublist _).subset (mem_of_mem_dedup hr₁)
      obtain ⟨s, hs⟩ : ∃ s, getCell r₁ "url" = some s := by
        have : (getCell r₁ "url").isSome := by
          simp only [validUrlTitle, Bool.and_eq_true] at hval
          exact hval.1
        exact Option.isSome_iff_exists.1 this
      have hstrim : pyStrip s = s := htrim r₁ hr₁mem s hs
      have hsu : s = u := by
        rw [getCell_stripRow _ _ _ hu (by decide), hs] at hru
        have : pyStrip s = u := by
          simpa [pyStr] using hru
        rw [hstrim] at this
        exact this
      have hfind₁ := mem_dedup_find? hr₁
      rw [hs, hsu, hfind] at hfind₁
      have hr₁r₀ : r₀ = r₁ := by
        injection hfind₁
      rw [getCell_stripRow _ _ _ ht (by decide), ← hr₁r₀, htA]
      show some (pyStrip A) = some A
      rw [htrimA]

/-- C3 witness: concrete instantiation of both conjuncts — the stored
record (url `u`, title `A`) beats the freshly fetched (url `u`,
title `B`) in both pipelines. -/
theorem merge_first_occurrence_precedence_witness :
    ((∃ r ∈ (clean_and_merge_gdelt dfEx dfNewUB).rows,
        getCell r "url" = some "u" ∧ getCell r "title" = some "A")
      ∧ ∀ r ∈ (clean_and_merge_gdelt dfEx dfNewUB).rows,
          getCell r "url" = some "u" → getCell r "title" = some "A")
    ∧ ((∃ r ∈ (DataFrame.mk ["url", "title"]
          [[("url", some "u"), ("title", some "A")]]).rows,
        getCell r "url" = some "u" ∧ getCell r "title" = some "A")
      ∧ ∀ r ∈ (DataFrame.mk ["url", "title"]
          [[("url", some "u"), ("title", some "A")]]).rows,
          getCell r "url" = some "u" → getCell r "title" = some "A") := by
  constructor
  · exact merge_first_occurrence_precedence.1 dfEx dfNewUB "u" "A" rowUA
      (by decide) (by decide) (by decide) rfl
  · refine merge_first_occurrence_precedence.2 dfEx dfNewUB
      (DataFrame.mk ["url", "title"]
        [[("url", some "u"), ("title", some "A")]]) "u" "A" rowUA rfl ?_
      (by decide) (by decide) rfl
    intro r hr s hsu
    have : r = rowUA ∨ r = rowUB := by
      rcases List.mem_cons.1 hr with h | h
      · exact Or.inl h
      · rcases List.mem_cons.1 h with h | h
        · exact Or.inr h
        · cases h
    rcases this with rfl | rfl
    · have : s = "u" := by
        have h' := hsu
        simp [rowUA, getCell] at h'
        exact h'.symm
      subst this
      decide
    · have : s = "u" := by
        have h' := hsu
        simp [rowUB, getCell] at h'
        exact h'.symm
      subst this
      decide

/-! ## C1: uniqueness of urls in merged datasets -/

theorem urlsOf_fillContent (cols : List String) (rows : List Row)
    (hu : "url" ∈ cols) :
    urlsOf (fillContent cols rows) = urlsOf rows := by
  unfold urlsOf fillContent
  rw [List.map_map]
  apply List.map_congr_left
  intro r _
  exact getCell_fillRow cols r "url" hu (by decide)

theorem gdeltTitleStep_urls_sublist (d : DataFrame) :
    List.Sublist (urlCells (gdeltTitleStep d)) (urlCells d) := by
  unfold gdeltTitleStep
  split
  · exact List.Sublist.map _ (List.filter_sublist _)
  · exact List.Sublist.refl _

theorem gdeltContentStep_urls (d : DataFrame) (hu : "url" ∈ d.cols) :
    urlCells (gdeltContentStep d) = urlCells d := by
  unfold gdeltContentStep
  split
  · exact urlsOf_fillContent d.cols d.rows hu
  · rfl

/-- The urls of the GDELT merge output are pairwise distinct whenever
the concatenated input has a `url` column at all. -/
theorem gdelt_urls_nodup (ex nw : DataFrame)
    (hu : "url" ∈ (DataFrame.concat ex nw).cols) :
    (urlCells (clean_and_merge_gdelt ex nw)).Nodup := by
  have hu0 : "url" ∈ (projectKeep (DataFrame.concat ex nw)).cols :=
    (mem_projectKeep_cols _ _ (by decide)).2 hu
  have h₁ : (urlCells (gdeltDedupStep
      (projectKeep (DataFrame.concat ex nw)))).Nodup := by
    unfold gdeltDedupStep
    rw [if_pos hu0]
    exact List.Nodup.sublist
      (List.Sublist.map _ (List.filter_sublist _))
      (dedup_urls_nodup _ []).1
  have h₂ : (urlCells (gdeltTitleStep (gdeltDedupStep
      (projectKeep (DataFrame.concat ex nw))))).Nodup :=
    List.Nodup.sublist (gdeltTitleStep_urls_sublist _) h₁
  have hu2 : "url" ∈ (gdeltTitleStep (gdeltDedupStep
      (projectKeep (DataFrame.concat ex nw)))).cols := by
    rw [gdeltTitleStep_cols, gdeltDedupStep_cols]
    exact hu0
  unfold clean_and_merge_gdelt
  rw [gdeltContentStep_urls _ hu2]
  exact h₂

/-- The urls of a successful NewsAPI merge are pairwise distinct when
all url values of the input are already whitespace-trimmed. -/
theorem newsapi_urls_nodup {ex nd d : DataFrame}
    (h : clean_and_merge_newsapi ex nd = Except.ok d)
    (htrim : ∀ r ∈ (DataFrame.concat ex nd).rows, ∀ s,
      getCell r "url" = some s → pyStrip s = s) :
    (urlCells d).Nodup := by
  obtain ⟨hu, ht, rfl⟩ := newsapi_ok_elim h
  show (urlsOf ((dedupByUrl
    ((DataFrame.concat ex nd).rows.filter validUrlTitle) []).map
      (stripRow (DataFrame.concat ex nd).cols))).Nodup
  have heq : urlsOf ((dedupByUrl
      ((DataFrame.concat ex nd).rows.filter validUrlTitle) []).map
        (stripRow (DataFrame.concat ex nd).cols))
      = urlsOf (dedupByUrl
          ((DataFrame.concat ex nd).rows.filter validUrlTitle) []) := by
    unfold urlsOf
    rw [List.map_map]
    apply List.map_congr_left
    intro r hrmem
    have hval : validUrlTitle r = true :=
      (List.mem_filter.1 (mem_of_mem_dedup hrmem)).2
    obtain ⟨s, hs⟩ : ∃ s, getCell r "url" = some s := by
      have : (getCell r "url").isSome := by
        simp only [validUrlTitle, Bool.and_eq_true] at hval
        exact hval.1
      exact Option.isSome_iff_exists.1 this
    have hrmem' : r ∈ (DataFrame.concat ex nd).rows :=
      (List.filter_sublist _).subset (mem_of_mem_dedup hrmem)
    show getCell (stripRow (DataFrame.concat ex nd).cols r) "url"
      = getCell r "url"
    rw [getCell_stripRow _ _ _ hu (by decide), hs]
    show some (pyStrip s) = some s
    rw [htrim r hrmem' s hs]
  rw [heq]
  exact (dedup_urls_nodup _ []).1

/-- C1 counterexample: the claim says no two records of a merged dataset
share a url.  The NewsAPI merge strips whitespace AFTER deduplicating:
urls "a" and "a " are distinct at dedup time and both collapse to "a"
afterwards, so the output carries two records with url "a". -/
theorem newsapi_url_collision_cx :
    clean_and_merge_newsapi dfGood dfASpace
        = Except.ok (DataFrame.mk ["url", "title"]
            [[("url", some "a"), ("title", some "t")],
             [("url", some "a"), ("title", some "s")]])
      ∧ ¬ (urlCells (DataFrame.mk ["url", "title"]
            [[("url", some "a"), ("title", some "t")],
             [("url", some "a"), ("title", some "s")]])).Nodup :=
  ⟨rfl, by decide⟩

/-- C1 amended: the GDELT merge output has pairwise-distinct urls
whenever the concatenated input has a `url` column; a successful
NewsAPI merge has pairwise-distinct urls when every input url value is
already whitespace-trimmed — in general its post-strip urls may
collide, since the strip runs after the dedup. -/
theorem merge_urls_unique_amended :
    (∀ ex nw : DataFrame, "url" ∈ (DataFrame.concat ex nw).cols →
      (urlCells (clean_and_merge_gdelt ex nw)).Nodup)
      ∧ ∀ ex nd d : DataFrame, clean_and_merge_newsapi ex nd = Except.ok d →
          (∀ r ∈ (DataFrame.concat ex nd).rows, ∀ s,
            getCell r "url" = some s → pyStrip s = s) →
          (urlCells d).Nodup :=
  ⟨gdelt_urls_nodup, fun _ _ _ h htrim => newsapi_urls_nodup h htrim⟩

/-- C1 witness: concrete distinct-url outputs in both pipelines. -/
theorem merge_urls_unique_witness :
    (urlCells (clean_and_merge_gdelt dfEx dfNewUB)).Nodup
      ∧ (urlCells (DataFrame.mk ["url", "title"] [rowA])).Nodup := by
  constructor
  · exact merge_urls_unique_amended.1 dfEx dfNewUB (by decide)
  · refine merge_urls_unique_amended.2 dfGood emptyDF
      (DataFrame.mk ["url", "title"] [rowA]) rfl ?_
    intro r hr s hsu
    have hre : r = rowA := by
      rcases List.mem_cons.1 hr with h | h
      · exact h
      · cases h
    subst hre
    have : s = "a" := by
      have h' := hsu
      simp [rowA, getCell] at h'
      exact h'.symm
    subst this
    decide

/-! ## C5 infrastructure: structure of merge outputs -/

theorem unionCols_self (c : List String) : unionCols c c = c := by
  unfold unionCols
  rw [List.filter_eq_nil_iff.2, List.append_nil]
  intro a ha
  simp [ha]

theorem gdeltDedupStep_rows_subset {d : DataFrame} {r : Row}
    (h : r ∈ (gdeltDedupStep d).rows) : r ∈ d.rows := by
  unfold gdeltDedupStep at h
  split at h
  · exact (dedup_sublist _ _).subset (List.filter_sublist _ |>.subset h)
  · exact h

theorem gdeltTitleStep_rows_subset {d : DataFrame} {r : Row}
    (h : r ∈ (gdeltTitleStep d).rows) : r ∈ d.rows := by
  unfold gdeltTitleStep at h
  split at h
  · exact List.filter_sublist _ |>.subset h
  · exact h

theorem projectKeep_rows_selfRow {d : DataFrame} {r : Row}
    (h : r ∈ (projectKeep d).rows) : SelfRow (projectKeep d).cols r := by
  simp only [projectKeep, List.mem_map] at h
  obtain ⟨r', _, hre⟩ := h
  subst hre
  exact selfRow_of_rebuild _ _

/-- The columns of the GDELT merge output. -/
theorem gdelt_output_cols (ex nw : DataFrame) :
    (clean_and_merge_gdelt ex nw).cols
      = KEEP_COLS.filter
          (fun c => decide (c ∈ (DataFrame.concat ex nw).cols)) := by
  unfold clean_and_merge_gdelt
  rw [gdeltContentStep_cols, gdeltTitleStep_cols, gdeltDedupStep_cols]
  rfl

/-- Every row of the GDELT merge output is a fixpoint of rebuilding
over the output columns. -/
theorem gdelt_output_selfRow (ex nw : DataFrame) :
    ∀ r ∈ (clean_and_merge_gdelt ex nw).rows,
      SelfRow (clean_and_merge_gdelt ex nw).cols r := by
  intro r hr
  unfold clean_and_merge_gdelt at hr ⊢
  unfold gdeltContentStep at hr ⊢
  by_cases hc : "content" ∈ (gdeltTitleStep (gdeltDedupStep (projectKeep
      (DataFrame.concat ex nw)))).cols
  · rw [if_pos hc] at hr ⊢
    simp only [fillContent, List.mem_map] at hr
    obtain ⟨r', _, hre⟩ := hr
    subst hre
    exact selfRow_of_rebuild _ _
  · rw [if_neg hc] at hr ⊢
    have h₁ := gdeltTitleStep_rows_subset hr
    have h₂ := gdeltDedupStep_rows_subset h₁
    have h₃ := projectKeep_rows_selfRow h₂
    rw [gdeltTitleStep_cols, gdeltDedupStep_cols]
    exact h₃

/-- Projection is the identity on a frame whose columns are already a
sub-filter of the whitelist and whose rows are rebuild fixpoints. -/
theorem projectKeep_idem_on (d : DataFrame)
    (hcols : ∃ P, d.cols = KEEP_COLS.filter P)
    (hrows : ∀ r ∈ d.rows, SelfRow d.cols r) :
    projectKeep d = d := by
  obtain ⟨P, hP⟩ := hcols
  have hkeep : KEEP_COLS.filter (fun c => decide (c ∈ d.cols)) = d.cols := by
    rw [hP]
    apply List.filter_congr
    intro c hc
    cases hPc : P c
    · simp [List.mem_filter, hPc]
    · simp [List.mem_filter, hc, hPc]
  unfold projectKeep
  rw [hkeep]
  have hrows' : d.rows.map (fun r => d.cols.map (fun c => (c, getCell r c)))
      = d.rows := by
    rw [List.map_congr_left (fun r hr => (hrows r hr).symm)]
    simp
  rw [hrows']

theorem gdelt_output_url_isSome (ex nw : DataFrame)
    (hu : "url" ∈ (DataFrame.concat ex nw).cols) :
    ∀ r ∈ (clean_and_merge_gdelt ex nw).rows, (getCell r "url").isSome := by
  intro r hr
  have hu0 : "url" ∈ (projectKeep (DataFrame.concat ex nw)).cols :=
    (mem_projectKeep_cols _ _ (by decide)).2 hu
  obtain ⟨r', hr', hru, _⟩ := mem_gdeltContentStep
    (d := gdeltTitleStep (gdeltDedupStep (projectKeep
      (DataFrame.concat ex nw)))) hr
  have hcolsu : "url" ∈ (gdeltTitleStep (gdeltDedupStep (projectKeep
      (DataFrame.concat ex nw)))).cols := by
    rw [gdeltTitleStep_cols, gdeltDedupStep_cols]
    exact hu0
  rw [hru hcolsu]
  have h₁ := gdeltTitleStep_rows_subset hr'
  unfold gdeltDedupStep at h₁
  rw [if_pos hu0] at h₁
  exact (List.mem_filter.1 h₁).2

theorem gdelt_output_title_isSome (ex nw : DataFrame)
    (ht : "title" ∈ (DataFrame.concat ex nw).cols) :
    ∀ r ∈ (clean_and_merge_gdelt ex nw).rows, (getCell r "title").isSome := by
  intro r hr
  have ht0 : "title" ∈ (projectKeep (DataFrame.concat ex nw)).cols :=
    (mem_projectKeep_cols _ _ (by decide)).2 ht
  obtain ⟨r', hr', _, hrt⟩ := mem_gdeltContentStep
    (d := gdeltTitleStep (gdeltDedupStep (projectKeep
      (DataFrame.concat ex nw)))) hr
  have hcolst : "title" ∈ (gdeltTitleStep (gdeltDedupStep (projectKeep
      (DataFrame.concat ex nw)))).cols := by
    rw [gdeltTitleStep_cols, gdeltDedupStep_cols]
    exact ht0
  rw [hrt hcolst]
  have ht1 : "title" ∈ (gdeltDedupStep (projectKeep
      (DataFrame.concat ex nw))).cols := by
    rw [gdeltDedupStep_cols]
    exact ht0
  unfold gdeltTitleStep at hr'
  rw [if_pos ht1] at hr'
  exact (List.mem_filter.1 hr').2

theorem gdelt_output_content_isSome (ex nw : DataFrame)
    (hc : "content" ∈ (DataFrame.concat ex nw).cols) :
    ∀ r ∈ (clean_and_merge_gdelt ex nw).rows,
      (getCell r "content").isSome := by
  intro r hr
  have hc0 : "content" ∈ (gdeltTitleStep (gdeltDedupStep (projectKeep
      (DataFrame.concat ex nw)))).cols := by
    rw [gdeltTitleStep_cols, gdeltDedupStep_cols]
    exact (mem_projectKeep_cols _ _ (by decide)).2 hc
  unfold clean_and_merge_gdelt gdeltContentStep at hr
  rw [if_pos hc0] at hr
  simp only [fillContent, List.mem_map] at hr
  obtain ⟨r', _, hre⟩ := hr
  subst hre
  rw [getCell_rebuild _ _ _ hc0, if_pos rfl]
  rfl

/-- `fillna("")` is the identity on rebuild-fixpoint rows whose content
cell is already present. -/
theorem fillContent_eq_self (cols : List String) (rows : List Row)
    (h : ∀ r ∈ rows, SelfRow cols r ∧ (getCell r "content").isSome) :
    fillContent cols rows = rows := by
  unfold fillContent
  rw [List.map_congr_left (g := fun r => r)]
  · simp
  · intro r hr
    obtain ⟨hself, hcont⟩ := h r hr
    obtain ⟨v, hv⟩ := Option.isSome_iff_exists.1 hcont
    have : ∀ c ∈ cols,
        (if c = "content" then some ((getCell r c).getD "")
          else getCell r c) = getCell r c := by
      intro c hcc
      by_cases hcc' : c = "content"
      · subst hcc'
        rw [if_pos rfl, hv]
        rfl
      · rw [if_neg hcc']
    rw [List.map_congr_left (fun c hcc => by rw [this c hcc])]
    exact hself.symm

/-! ## Idempotence of `pyStrip` -/

theorem dropWhile_head_false (p : Char → Bool) (l : List Char) (x : Char)
    (xs : List Char) (h : l.dropWhile p = x :: xs) : p x = false := by
  induction l with
  | nil => cases h
  | cons a l ih =>
    cases hp : p a
    · rw [List.dropWhile_cons_of_neg (by simp [hp])] at h
      cases h
      exact hp
    · rw [List.dropWhile_cons_of_pos (by simp [hp])] at h
      exact ih h

theorem dropWhile_idem (p : Char → Bool) (l : List Char) :
    (l.dropWhile p).dropWhile p = l.dropWhile p := by
  induction l with
  | nil => rfl
  | cons a l ih =>
    cases hp : p a
    · rw [List.dropWhile_cons_of_neg (by simp [hp]),
        List.dropWhile_cons_of_neg (by simp [hp])]
    · rw [List.dropWhile_cons_of_pos (by simp [hp])]
      exact ih

theorem dropWhile_suffix_exists (p : Char → Bool) (l : List Char) :
    ∃ t, t ++ l.dropWhile p = l := by
  induction l with
  | nil => exact ⟨[], rfl⟩
  | cons a l ih =>
    cases hp : p a
    · exact ⟨[], by rw [List.dropWhile_cons_of_neg (by simp [hp])]; rfl⟩
    · obtain ⟨t, ht⟩ := ih
      refine ⟨a :: t, ?_⟩
      rw [List.dropWhile_cons_of_pos (by simp [hp]), List.cons_append, ht]

/-- The list-level core of `pyStrip`. -/
def stripList (l : List Char) : List Char :=
  ((l.dropWhile Char.isWhitespace).reverse.dropWhile Char.isWhitespace).reverse

theorem stripList_idem (l : List Char) :
    stripList (stripList l) = stripList l := by
  unfold stripList
  have h1 : (((l.dropWhile Char.isWhitespace).reverse.dropWhile
        Char.isWhitespace).reverse).dropWhile Char.isWhitespace
      = ((l.dropWhile Char.isWhitespace).reverse.dropWhile
          Char.isWhitespace).reverse := by
    cases hrev : ((l.dropWhile Char.isWhitespace).reverse.dropWhile
        Char.isWhitespace).reverse with
    | nil => rfl
    | cons x xs =>
      have hx : Char.isWhitespace x = false := by
        obtain ⟨t, ht⟩ := dropWhile_suffix_exists Char.isWhitespace
          (l.dropWhile Char.isWhitespace).reverse
        have h2 := congrArg List.reverse ht
        rw [List.reverse_append, List.reverse_reverse, hrev] at h2
        exact dropWhile_head_false Char.isWhitespace l x (xs ++ t.reverse)
          (by rw [← h2]; rfl)
      rw [List.dropWhile_cons_of_neg (by simp [hx])]
  rw [h1, List.reverse_reverse, dropWhile_idem]

theorem pyStrip_idem (s : String) : pyStrip (pyStrip s) = pyStrip s := by
  show String.mk (stripList (stripList s.toList)) = String.mk (stripList s.toList)
  rw [stripList_idem]

theorem gdelt_cols_iff (ex nw : DataFrame) (c : String) (hc : c ∈ KEEP_COLS) :
    c ∈ (clean_and_merge_gdelt ex nw).cols
      ↔ c ∈ (DataFrame.concat ex nw).cols := by
  rw [gdelt_output_cols]
  simp [List.mem_filter, hc]

theorem gdeltTitleStep_eq_self (d : DataFrame)
    (h : "title" ∈ d.cols → ∀ r ∈ d.rows, (getCell r "title").isSome) :
    gdeltTitleStep d = d := by
  unfold gdeltTitleStep
  split
  · next ht =>
    rw [List.filter_eq_self.2 (h ht)]
  · rfl

theorem gdeltContentStep_eq_self (d : DataFrame)
    (h : "content" ∈ d.cols → ∀ r ∈ d.rows,
      SelfRow d.cols r ∧ (getCell r "content").isSome) :
    gdeltContentStep d = d := by
  unfold gdeltContentStep
  split
  · next hc =>
    rw [fillContent_eq_self d.cols d.rows (h hc)]
  · rfl

/-- Re-merging a GDELT output with a subset of its own rows preserves
the set of url cells (indeed, when a `url` column is present the output
is exactly the original dataset). -/
theorem gdelt_idempotent (ex nw : DataFrame) (sub : List Row)
    (hsub : List.Sublist sub (clean_and_merge_gdelt ex nw).rows) :
    ∀ c, c ∈ urlCells (clean_and_merge_gdelt (clean_and_merge_gdelt ex nw)
          (DataFrame.mk (clean_and_merge_gdelt ex nw).cols sub))
      ↔ c ∈ urlCells (clean_and_merge_gdelt ex nw) := by
  intro c
  have hsubmem : ∀ r ∈ sub, r ∈ (clean_and_merge_gdelt ex nw).rows :=
    fun r hr => hsub.subset hr
  have hself := gdelt_output_selfRow ex nw
  have hallmem : ∀ r ∈ (clean_and_merge_gdelt ex nw).rows ++ sub,
      r ∈ (clean_and_merge_gdelt ex nw).rows := by
    intro r hr
    rcases List.mem_append.1 hr with h | h
    · exact h
    · exact hsubmem r h
  have hconcat : DataFrame.concat (clean_and_merge_gdelt ex nw)
      (DataFrame.mk (clean_and_merge_gdelt ex nw).cols sub)
        = DataFrame.mk (clean_and_merge_gdelt ex nw).cols
            ((clean_and_merge_gdelt ex nw).rows ++ sub) := by
    show DataFrame.mk (unionCols (clean_and_merge_gdelt ex nw).cols
      (clean_and_merge_gdelt ex nw).cols) _ = _
    rw [unionCols_self]
  have hproj : projectKeep (DataFrame.mk (clean_and_merge_gdelt ex nw).cols
      ((clean_and_merge_gdelt ex nw).rows ++ sub))
        = DataFrame.mk (clean_and_merge_gdelt ex nw).cols
            ((clean_and_merge_gdelt ex nw).rows ++ sub) := by
    apply projectKeep_idem_on
    · exact ⟨_, gdelt_output_cols ex nw⟩
    · intro r hr
      exact hself r (hallmem r hr)
  have htitleAll : ∀ (rows : List Row),
      (∀ r ∈ rows, r ∈ (clean_and_merge_gdelt ex nw).rows) →
      "title" ∈ (clean_and_merge_gdelt ex nw).cols →
      ∀ r ∈ rows, (getCell r "title").isSome := by
    intro rows hmem ht r hr
    exact gdelt_output_title_isSome ex nw
      ((gdelt_cols_iff ex nw _ (by decide)).1 ht) r (hmem r hr)
  have hcontentAll : ∀ (rows : List Row),
      (∀ r ∈ rows, r ∈ (clean_and_merge_gdelt ex nw).rows) →
      "content" ∈ (clean_and_merge_gdelt ex nw).cols →
      ∀ r ∈ rows, SelfRow (clean_and_merge_gdelt ex nw).cols r
        ∧ (getCell r "content").isSome := by
    intro rows hmem hc r hr
    exact ⟨hself r (hmem r hr),
      gdelt_output_content_isSome ex nw
        ((gdelt_cols_iff ex nw _ (by decide)).1 hc) r (hmem r hr)⟩
  show c ∈ urlCells (gdeltContentStep (gdeltTitleStep (gdeltDedupStep
      (projectKeep (DataFrame.concat (clean_and_merge_gdelt ex nw)
        (DataFrame.mk (clean_and_merge_gdelt ex nw).cols sub)))))) ↔ _
  rw [hconcat, hproj]
  by_cases hu : "url" ∈ (clean_and_merge_gdelt ex nw).cols
  · have huC : "url" ∈ (DataFrame.concat ex nw).cols :=
      (gdelt_cols_iff ex nw _ (by decide)).1 hu
    have hnodup : (urlsOf (clean_and_merge_gdelt ex nw).rows).Nodup :=
      gdelt_urls_nodup ex nw huC
    have hurlsome := gdelt_output_url_isSome ex nw huC
    have habsorb : dedupByUrl ((clean_and_merge_gdelt ex nw).rows ++ sub) []
        = (clean_and_merge_gdelt ex nw).rows := by
      refine dedup_append_absorb hnodup (fun c' _ h => List.not_mem_nil c' h)
        (fun c' hc' => Or.inl ?_)
      exact (List.Sublist.map (fun r => getCell r "url") hsub).subset hc'
    have hstep2 : gdeltDedupStep (DataFrame.mk
        (clean_and_merge_gdelt ex nw).cols
        ((clean_and_merge_gdelt ex nw).rows ++ sub))
          = DataFrame.mk (clean_and_merge_gdelt ex nw).cols
              (clean_and_merge_gdelt ex nw).rows := by
      unfold gdeltDedupStep
      rw [if_pos (show "url" ∈ (DataFrame.mk
        (clean_and_merge_gdelt ex nw).cols
        ((clean_and_merge_gdelt ex nw).rows ++ sub)).cols from hu)]
      have : dedupByUrl (DataFrame.mk (clean_and_merge_gdelt ex nw).cols
          ((clean_and_merge_gdelt ex nw).rows ++ sub)).rows [] =
            (clean_and_merge_gdelt ex nw).rows := habsorb
      rw [this, List.filter_eq_self.2 (fun r hr => hurlsome r hr)]
    rw [hstep2,
      gdeltTitleStep_eq_self (DataFrame.mk (clean_and_merge_gdelt ex nw).cols
        (clean_and_merge_gdelt ex nw).rows)
        (fun ht => htitleAll _ (fun r hr => hr) ht),
      gdeltContentStep_eq_self (DataFrame.mk (clean_and_merge_gdelt ex nw).cols
        (clean_and_merge_gdelt ex nw).rows)
        (fun hc => hcontentAll _ (fun r hr => hr) hc)]
  · have hstep2 : gdeltDedupStep (DataFrame.mk
        (clean_and_merge_gdelt ex nw).cols
        ((clean_and_merge_gdelt ex nw).rows ++ sub))
          = DataFrame.mk (clean_and_merge_gdelt ex nw).cols
              ((clean_and_merge_gdelt ex nw).rows ++ sub) := by
      unfold gdeltDedupStep
      rw [if_neg (show "url" ∉ (DataFrame.mk
        (clean_and_merge_gdelt ex nw).cols
        ((clean_and_merge_gdelt ex nw).rows ++ sub)).cols from hu)]
    rw [hstep2,
      gdeltTitleStep_eq_self (DataFrame.mk (clean_and_merge_gdelt ex nw).cols
        ((clean_and_merge_gdelt ex nw).rows ++ sub))
        (fun ht => htitleAll _ hallmem ht),
      gdeltContentStep_eq_self (DataFrame.mk (clean_and_merge_gdelt ex nw).cols
        ((clean_and_merge_gdelt ex nw).rows ++ sub))
        (fun hc => hcontentAll _ hallmem hc)]
    show c ∈ urlsOf ((clean_and_merge_gdelt ex nw).rows ++ sub) ↔ _
    rw [urlsOf_append]
    constructor
    · intro h
      rcases List.mem_append.1 h with h | h
      · exact h
      · exact (List.Sublist.map (fun r => getCell r "url") hsub).subset h
    · intro h
      exact List.mem_append.2 (Or.inl h)

/-- The NewsAPI merge as a function of the concatenated frame. -/
theorem newsapi_merge_concat (ex nd : DataFrame) :
    clean_and_merge_newsapi ex nd =
      if "url" ∈ (DataFrame.concat ex nd).cols
          ∧ "title" ∈ (DataFrame.concat ex nd).cols then
        Except.ok (DataFrame.mk (DataFrame.concat ex nd).cols
          ((dedupByUrl ((DataFrame.concat ex nd).rows.filter validUrlTitle)
            []).map (stripRow (DataFrame.concat ex nd).cols)))
      else Except.error PyError.keyError := rfl

/-- Re-merging a NewsAPI output with a subset of its own rows succeeds
and preserves the set of url cells. -/
theorem newsapi_idempotent {ex nd D : DataFrame} (sub : List Row)
    (h : clean_and_merge_newsapi ex nd = Except.ok D)
    (hsub : List.Sublist sub D.rows) :
    ∃ d', clean_and_merge_newsapi D (DataFrame.mk D.cols sub) = Except.ok d'
      ∧ ∀ c, c ∈ urlCells d' ↔ c ∈ urlCells D := by
  obtain ⟨hu, ht, hD⟩ := newsapi_ok_elim h
  have hDcols : D.cols = (DataFrame.concat ex nd).cols := by rw [hD]
  have huD : "url" ∈ D.cols := by rw [hDcols]; exact hu
  have htD : "title" ∈ D.cols := by rw [hDcols]; exact ht
  have hvalid : ∀ r ∈ D.rows, validUrlTitle r = true := by
    intro r hr
    obtain ⟨h1, h2⟩ := newsapi_output_nonnull h r hr
    simp [validUrlTitle, h1, h2]
  have hstripped : ∀ r ∈ D.rows, ∃ s, getCell r "url" = some (pyStrip s) := by
    intro r hr
    rw [hD] at hr
    simp only [List.mem_map] at hr
    obtain ⟨r', _, hre⟩ := hr
    subst hre
    exact ⟨pyStr (getCell r' "url"), getCell_stripRow _ _ _ hu (by decide)⟩
  have hconcat : DataFrame.concat D (DataFrame.mk D.cols sub)
      = DataFrame.mk D.cols (D.rows ++ sub) := by
    show DataFrame.mk (unionCols D.cols D.cols) _ = _
    rw [unionCols_self]
  have hsubmem : ∀ r ∈ sub, r ∈ D.rows := fun r hr => hsub.subset hr
  have hallmem : ∀ r ∈ D.rows ++ sub, r ∈ D.rows := by
    intro r hr
    rcases List.mem_append.1 hr with h' | h'
    · exact h'
    · exact hsubmem r h'
  have hfil : (D.rows ++ sub).filter validUrlTitle = D.rows ++ sub :=
    List.filter_eq_self.2 (fun r hr => hvalid r (hallmem r hr))
  have hok : clean_and_merge_newsapi D (DataFrame.mk D.cols sub)
      = Except.ok (DataFrame.mk D.cols
          ((dedupByUrl (D.rows ++ sub) []).map (stripRow D.cols))) := by
    rw [newsapi_merge_concat, hconcat]
    show (if "url" ∈ D.cols ∧ "title" ∈ D.cols then
        Except.ok (DataFrame.mk D.cols
          ((dedupByUrl ((D.rows ++ sub).filter validUrlTitle) []).map
            (stripRow D.cols)))
      else Except.error PyError.keyError) = _
    rw [if_pos ⟨huD, htD⟩, hfil]
  refine ⟨_, hok, fun c => ?_⟩
  have hstripfix : ∀ r ∈ dedupByUrl (D.rows ++ sub) [],
      getCell (stripRow D.cols r) "url" = getCell r "url" := by
    intro r hr
    have hrD : r ∈ D.rows := hallmem r (mem_of_mem_dedup hr)
    obtain ⟨s, hs⟩ := hstripped r hrD
    rw [getCell_stripRow _ _ _ huD (by decide), hs]
    show some (pyStrip (pyStrip s)) = some (pyStrip s)
    rw [pyStrip_idem]
  have hurls : urlsOf ((dedupByUrl (D.rows ++ sub) []).map (stripRow D.cols))
      = urlsOf (dedupByUrl (D.rows ++ sub) []) := by
    unfold urlsOf
    rw [List.map_map]
    exact List.map_congr_left (fun r hr => hstripfix r hr)
  show c ∈ urlsOf ((dedupByUrl (D.rows ++ sub) []).map (stripRow D.cols))
    ↔ c ∈ urlCells D
  rw [hurls]
  constructor
  · intro hc
    have hin : c ∈ urlsOf (D.rows ++ sub) :=
      (List.Sublist.map _ (dedup_sublist _ _)).subset hc
    rw [urlsOf_append] at hin
    rcases List.mem_append.1 hin with h' | h'
    · exact h'
    · exact (List.Sublist.map _ hsub).subset h'
  · intro hc
    have hin : c ∈ urlsOf (D.rows ++ sub) := by
      rw [urlsOf_append]
      exact List.mem_append.2 (Or.inl hc)
    rcases mem_urls_dedup hin [] with h' | h'
    · cases h'
    · exact h'

/-! ## C5: idempotence of the merge -/

/-- C5: merging a merge output `D` with (a subset of) its own records
yields a dataset with the same set of url cells — set equality by
`url`, modulo order. -/
theorem merge_idempotent :
    (∀ (ex nw : DataFrame) (sub : List Row),
      List.Sublist sub (clean_and_merge_gdelt ex nw).rows →
      ∀ c, c ∈ urlCells (clean_and_merge_gdelt (clean_and_merge_gdelt ex nw)
            (DataFrame.mk (clean_and_merge_gdelt ex nw).cols sub))
        ↔ c ∈ urlCells (clean_and_merge_gdelt ex nw))
      ∧ ∀ (ex nd D : DataFrame) (sub : List Row),
          clean_and_merge_newsapi ex nd = Except.ok D →
          List.Sublist sub D.rows →
          ∃ d', clean_and_merge_newsapi D (DataFrame.mk D.cols sub)
              = Except.ok d'
            ∧ ∀ c, c ∈ urlCells d' ↔ c ∈ urlCells D :=
  ⟨gdelt_idempotent, fun _ _ _ sub h hsub => newsapi_idempotent sub h hsub⟩

/-- C5 witness: re-merging concrete outputs with all of their own
records changes no url in either pipeline. -/
theorem merge_idempotent_witness :
    (some "u" ∈ urlCells (clean_and_merge_gdelt
        (clean_and_merge_gdelt dfEx dfNewUB)
        (DataFrame.mk (clean_and_merge_gdelt dfEx dfNewUB).cols
          (clean_and_merge_gdelt dfEx dfNewUB).rows))
      ↔ some "u" ∈ urlCells (clean_and_merge_gdelt dfEx dfNewUB))
    ∧ ∃ d', clean_and_merge_newsapi (DataFrame.mk ["url", "title"] [rowA])
          (DataFrame.mk (DataFrame.mk ["url", "title"] [rowA]).cols [rowA])
        = Except.ok d'
      ∧ ∀ c, c ∈ urlCells d'
          ↔ c ∈ urlCells (DataFrame.mk ["url", "title"] [rowA]) :=
  ⟨merge_idempotent.1 dfEx dfNewUB _ (List.Sublist.refl _) (some "u"),
    merge_idempotent.2 dfGood emptyDF (DataFrame.mk ["url", "title"] [rowA])
      [rowA] rfl (List.Sublist.refl _)⟩
